import Mathlib

/-!
Shallow embedding of the transparent OpenAI API proxy (`main.go`) and proofs
about its request/response relay pipeline and traffic recorder.

Bytes are modelled as Lean `String`s (one `Char` per byte); Go `len`/slicing
on byte strings becomes `List.length`/`List.take` on `String.data`.
Go's `map[string][]string` header maps are modelled as association lists
with unique keys in iteration order; `http.Header` accessors canonicalize
keys exactly as `net/textproto.CanonicalMIMEHeaderKey` does.
-/

namespace OaiProxy

/-- Go `strings.ToLower` (ASCII case folding, the only case the program needs). -/
def lowerStr (s : String) : String := String.mk (s.data.map Char.toLower)

/-- `hasPrefixL s p` : the char list `p` is a prefix of `s`. -/
def hasPrefixL : List Char → List Char → Bool
  | _, [] => true
  | [], _ :: _ => false
  | c :: s, p :: ps => c == p && hasPrefixL s ps

/-- Substring occurrence test on char lists (helper for `goContains`). -/
def containsSub (pat : List Char) : List Char → Bool
  | [] => hasPrefixL [] pat
  | c :: s => hasPrefixL (c :: s) pat || containsSub pat s

/-- Go `strings.Contains`. -/
def goContains (s pat : String) : Bool := containsSub pat.data s.data

/-- Go `len` on a byte string. -/
def goLen (s : String) : Nat := s.data.length

/-- Go byte-slice prefix `b[:n]`. -/
def takeBytes (s : String) (n : Nat) : String := String.mk (s.data.take n)

/-- `net/textproto.validHeaderFieldByte`: HTTP token characters. -/
def isTokenChar (c : Char) : Bool :=
  c.isAlphanum || c == '!' || c == '#' || c == '$' || c == '%' || c == '&' ||
  c == '\x27' || c == '*' || c == '+' || c == '-' || c == '.' || c == '^' ||
  c == '_' || c == '\x60' || c == '|' || c == '~'

/-- Case-normalisation pass of `CanonicalMIMEHeaderKey`: upper-case the first
letter and every letter following a hyphen, lower-case the rest. -/
def canonAux : Bool → List Char → List Char
  | _, [] => []
  | upper, c :: rest =>
    let c2 := if upper then c.toUpper else c.toLower
    c2 :: canonAux (c2 == '-') rest

/-- `net/textproto.CanonicalMIMEHeaderKey`: keys with a non-token byte are
returned unchanged, otherwise the case-normalised form. -/
def canonicalKey (s : String) : String :=
  if s.data.all isTokenChar then String.mk (canonAux true s.data) else s

/-- Go `http.Header` / `map[string][]string`, in iteration order. -/
abbrev Headers := List (String × List String)

/-- Map lookup `h[k]` (no canonicalization; `k` is assumed already canonical). -/
def hLookup : Headers → String → Option (List String)
  | [], _ => none
  | (k, vs) :: rest, ck => if k = ck then some vs else hLookup rest ck

/-- `textproto.MIMEHeader.Add` after canonicalization of the key. -/
def headerAddC : Headers → String → String → Headers
  | [], ck, v => [(ck, [v])]
  | (k, vs) :: rest, ck, v =>
    if k = ck then (k, vs ++ [v]) :: rest else (k, vs) :: headerAddC rest ck v

/-- `http.Header.Add`. -/
def headerAdd (hs : Headers) (k v : String) : Headers := headerAddC hs (canonicalKey k) v

/-- `textproto.MIMEHeader.Set` after canonicalization of the key. -/
def headerSetC : Headers → String → String → Headers
  | [], ck, v => [(ck, [v])]
  | (k, vs) :: rest, ck, v =>
    if k = ck then (k, [v]) :: rest else (k, vs) :: headerSetC rest ck v

/-- `http.Header.Set`. -/
def headerSet (hs : Headers) (k v : String) : Headers := headerSetC hs (canonicalKey k) v

/-- `textproto.MIMEHeader.Del` after canonicalization of the key. -/
def headerDelC : Headers → String → Headers
  | [], _ => []
  | (k, vs) :: rest, ck => if k = ck then rest else (k, vs) :: headerDelC rest ck

/-- `http.Header.Del`. -/
def headerDel (hs : Headers) (k : String) : Headers := headerDelC hs (canonicalKey k)

/-- `http.Header.Get`: first value under the canonicalized key, `""` if absent. -/
def headerGet (hs : Headers) (k : String) : String :=
  match hLookup hs (canonicalKey k) with
  | some (v :: _) => v
  | _ => ""

/-- Result of reading the inbound request body (`r.Body`): the body reference
may be `nil`, or reading it yields the buffered bytes or an error. -/
inductive BodyRead where
  | nilBody
  | bytes (s : String)
  | readFail
deriving DecidableEq

/-- Inbound `*http.Request` as `ServeHTTP`, `LogRequest` use it. -/
structure GoRequest where
  method : String
  urlPath : String
  rawQuery : String
  proto : String
  headers : Headers
  body : BodyRead
deriving DecidableEq

/-- Upstream `*http.Response`: status line data, headers, and the successive
successful `Body.Read` results; `readErr` records whether the body read ends
in an error instead of `io.EOF` after those chunks. -/
structure UpstreamResponse where
  proto : String
  status : String
  statusCode : Nat
  headers : Headers
  chunks : List String
  readErr : Bool
deriving DecidableEq

/-- The outbound request built by `ServeHTTP` and passed to `client.Do`. -/
structure ProxyRequest where
  method : String
  url : String
  headers : Headers
  body : String
deriving DecidableEq

/-- `Config` (the fields of the Go struct). -/
structure Config where
  Port : String
  OpenAIBaseURL : String
  OpenAIAPIKey : String
  LogRequests : Bool
  LogResponses : Bool
  LogToStdout : Bool
  RequestLogFile : String
deriving DecidableEq

/-- Sink configuration of `RequestLogger` (file handle presence and stdout echo). -/
structure RequestLogger where
  LogToFile : Bool
  LogToStdout : Bool
deriving DecidableEq

/-- What one `LogRequest`/`LogResponse` call writes to each configured sink:
`fmt.Fprintln(l.LogFile, logData)` appends a trailing newline, while
`fmt.Print(logData)` writes the record verbatim. -/
structure SinkOutput where
  fileOut : Option String
  stdoutOut : Option String
deriving DecidableEq

/-- Sink fan-out shared by `LogRequest` and `LogResponse`. -/
def emitLog (l : RequestLogger) (logData : String) : SinkOutput :=
  { fileOut := if l.LogToFile then some (logData ++ "\n") else none,
    stdoutOut := if l.LogToStdout then some logData else none }

/-- The request id `LogRequest` derives: the `X-Request-ID` header if present,
else one synthesized from the current nanosecond timestamp. -/
def logRequestID (nano : Nat) (hs : Headers) : String :=
  let rid := headerGet hs "X-Request-ID"
  if rid = "" then "req-" ++ toString nano else rid

/-- Lines `  <Name>: <Value>`, one per value of a header. -/
def valueLines (n : String) : List String → String
  | [] => ""
  | v :: vs => "  " ++ n ++ ": " ++ v ++ "\n" ++ valueLines n vs

/-- Lines for one request header; the `Authorization` header (any letter case)
is replaced by a single redacted line. -/
def requestEntryLines (nv : String × List String) : String :=
  if lowerStr nv.1 = "authorization" then "  " ++ nv.1 ++ ": Bearer [REDACTED]\n"
  else valueLines nv.1 nv.2

/-- The header block of a request record. -/
def requestHeaderLines : Headers → String
  | [] => ""
  | nv :: rest => requestEntryLines nv ++ requestHeaderLines rest

/-- `LogRequest`'s formatted record (`buf.String()`), with the two `time.Now()`
readings abstracted as `nano` (id synthesis) and `now` (RFC3339 timestamp). -/
def logRequestData (nano : Nat) (now : String) (r : GoRequest) (body : String) : String :=
  "==== REQUEST [" ++ logRequestID nano r.headers ++ "] " ++ now ++ " ====\n" ++
  r.method ++ " " ++ r.urlPath ++ " " ++ r.proto ++ "\n" ++
  "Headers:\n" ++ requestHeaderLines r.headers ++
  (if goLen body > 0 then "Body:\n" ++ body ++ "\n" else "")

/-- Lines of one response header (no redaction in `LogResponse`). -/
def respEntryLines (n : String) : List String → String
  | [] => ""
  | v :: vs => "  " ++ n ++ ": " ++ v ++ "\n" ++ respEntryLines n vs

/-- The header block of a response record. -/
def respHeaderLines : Headers → String
  | [] => ""
  | nv :: rest => respEntryLines nv.1 nv.2 ++ respHeaderLines rest

/-- `LogResponse`'s formatted record: bodies longer than `maxBodySize = 10000`
are truncated to the first 10000 bytes with a remainder-count trailer. -/
def logResponseData (now reqID : String) (resp : UpstreamResponse) (body : String) : String :=
  "==== RESPONSE [" ++ reqID ++ "] " ++ now ++ " ====\n" ++
  resp.proto ++ " " ++ resp.status ++ "\n" ++
  "Headers:\n" ++ respHeaderLines resp.headers ++
  (if goLen body > 0 then
    (if goLen body > 10000 then
      "Body (truncated to 10000 bytes):\n" ++ takeBytes body 10000 ++ "\n" ++
      "... [" ++ toString (goLen body - 10000) ++ " more bytes]\n"
    else "Body:\n" ++ body ++ "\n")
  else "")

/-- One recorder call made during `ServeHTTP`, with the correlation id it used
and the formatted record it produced. -/
inductive LogEvent where
  | request (reqID : String) (data : String)
  | response (reqID : String) (data : String)
deriving DecidableEq

/-- The id a `LogEvent` was tagged with. -/
def LogEvent.rid : LogEvent → String
  | .request i _ => i
  | .response i _ => i

/-- The formatted record of a `LogEvent`. -/
def LogEvent.record : LogEvent → String
  | .request _ d => d
  | .response _ d => d

/-- The client side of `http.ResponseWriter`: a mutable header map, a one-shot
committed status line (with the header snapshot sent at commit time), and the
concatenation of all body writes.  Mutating headers after the commit has no
client-visible effect, and a second `WriteHeader` is superfluous and ignored. -/
structure Writer where
  pending : Headers
  committed : Option (Nat × Headers)
  body : String
deriving DecidableEq

/-- A fresh response writer. -/
def Writer.init : Writer := { pending := [], committed := none, body := "" }

/-- `w.Header().Add`. -/
def Writer.addHeader (w : Writer) (k v : String) : Writer :=
  { w with pending := headerAdd w.pending k v }

/-- `w.Header().Set`. -/
def Writer.setHeader (w : Writer) (k v : String) : Writer :=
  { w with pending := headerSet w.pending k v }

/-- `w.Header().Del`. -/
def Writer.delHeader (w : Writer) (k : String) : Writer :=
  { w with pending := headerDel w.pending k }

/-- `w.WriteHeader`. -/
def Writer.writeHeader (w : Writer) (code : Nat) : Writer :=
  match w.committed with
  | some _ => w
  | none => { w with committed := some (code, w.pending) }

/-- `w.Write`: an uncommitted writer first commits status 200. -/
def Writer.write (w : Writer) (s : String) : Writer :=
  let w1 := w.writeHeader 200
  { w1 with body := w1.body ++ s }

/-- `http.Error(w, msg, code)`. -/
def httpError (w : Writer) (msg : String) (code : Nat) : Writer :=
  ((((w.delHeader "Content-Length").setHeader "Content-Type"
      "text/plain; charset=utf-8").setHeader "X-Content-Type-Options"
      "nosniff").writeHeader code).write (msg ++ "\n")

/-- Reading the inbound body at the top of `ServeHTTP`: a `nil` body leaves
`bodyBytes` empty, otherwise `io.ReadAll` yields the bytes or fails. -/
def bodyResult : GoRequest → Option String
  | { body := BodyRead.nilBody, .. } => some ""
  | { body := BodyRead.bytes s, .. } => some s
  | { body := BodyRead.readFail, .. } => none

/-- The correlation id `ServeHTTP` settles on (reuse `X-Request-ID`, else
synthesize `req-<nanoseconds>`). -/
def serveRequestID (nano : Nat) (r : GoRequest) : String :=
  let rid := headerGet r.headers "X-Request-ID"
  if rid = "" then "req-" ++ toString nano else rid

/-- The request after `ServeHTTP`'s id assignment: when no `X-Request-ID` was
supplied the synthesized id is `Set` on the header map. -/
def updatedRequest (nano : Nat) (r : GoRequest) : GoRequest :=
  if headerGet r.headers "X-Request-ID" = "" then
    { r with headers := headerSet r.headers "X-Request-ID" ("req-" ++ toString nano) }
  else r

/-- `targetURL := s.Config.OpenAIBaseURL + r.URL.Path [+ "?" + r.URL.RawQuery]`. -/
def targetURL (cfg : Config) (r : GoRequest) : String :=
  cfg.OpenAIBaseURL ++ r.urlPath ++ (if r.rawQuery = "" then "" else "?" ++ r.rawQuery)

/-- Inner loop of the header copy: `proxyReq.Header.Add(name, value)` per value. -/
def addValues (acc : Headers) (k : String) : List String → Headers
  | [] => acc
  | v :: vs => addValues (headerAdd acc k v) k vs

/-- Header copy loop of `ServeHTTP`: every inbound header except `Host`
(case-insensitively) is added to the fresh outbound header map. -/
def copyInto (acc : Headers) : Headers → Headers
  | [] => acc
  | nv :: rest =>
    copyInto (if lowerStr nv.1 = "host" then acc else addValues acc nv.1 nv.2) rest

/-- The copied outbound headers, starting from `http.NewRequest`'s empty map. -/
def copyHeaders (hs : Headers) : Headers := copyInto [] hs

/-- Outbound headers after the credential-injection step: if the copied headers
carry no `Authorization` value and a credential is configured, inject
`Authorization: Bearer <credential>`. -/
def buildProxyHeaders (cfg : Config) (hs : Headers) : Headers :=
  let ph := copyHeaders hs
  if headerGet ph "Authorization" = "" ∧ cfg.OpenAIAPIKey ≠ "" then
    headerSet ph "Authorization" ("Bearer " ++ cfg.OpenAIAPIKey)
  else ph

/-- The outbound request handed to `client.Do`. -/
def buildProxyRequest (cfg : Config) (r : GoRequest) (bodyBytes : String) : ProxyRequest :=
  { method := r.method, url := targetURL cfg r,
    headers := buildProxyHeaders cfg r.headers, body := bodyBytes }

/-- Response-header relay loop: `w.Header().Add(name, value)` for every value. -/
def addRespValues (w : Writer) (k : String) : List String → Writer
  | [] => w
  | v :: vs => addRespValues (w.addHeader k v) k vs

/-- `ServeHTTP`'s response-header copy. -/
def copyRespHeaders (w : Writer) : Headers → Writer
  | [] => w
  | nv :: rest => copyRespHeaders (addRespValues w nv.1 nv.2) rest

/-- Total bytes produced by draining the upstream body (`io.Copy` /
accumulated chunk writes). -/
def concatChunks : List String → String
  | [] => ""
  | c :: cs => c ++ concatChunks cs

/-- The streaming relay loop with response logging: each non-empty `Read`
result is written to the client, flushed, and logged as one response record. -/
def relayChunks (now reqID : String) (resp : UpstreamResponse) (w : Writer) :
    List String → Writer × List LogEvent
  | [] => (w, [])
  | c :: cs =>
    if c = "" then relayChunks now reqID resp w cs
    else
      let rest := relayChunks now reqID resp (w.write c) cs
      (rest.1, LogEvent.response reqID (logResponseData now reqID resp c) :: rest.2)

/-- Per-request environment: the `time.Now()` readings (`nano` for
`ServeHTTP`'s id synthesis, `nanoLog` for `LogRequest`'s own fallback, `now`
for record timestamps), whether the response writer supports `http.Flusher`,
and the upstream (`client.Do`) as an oracle from outbound request to result. -/
structure Env where
  nano : Nat
  nanoLog : Nat
  now : String
  flusherOk : Bool
  upstream : ProxyRequest → Except String UpstreamResponse

/-- Observable outcome of one `ServeHTTP` call: the final client writer state,
the recorder calls made, and the outbound request dispatched upstream (if the
handler reached `client.Do`). -/
structure ServeResult where
  writer : Writer
  logs : List LogEvent
  sent : Option ProxyRequest
deriving DecidableEq

/-- `ServeHTTP` as a function of the configuration, environment, inbound
request and initial writer state. -/
def serveHTTP (cfg : Config) (env : Env) (r : GoRequest) (w0 : Writer) : ServeResult :=
  match bodyResult r with
  | none =>
    { writer := httpError w0 "Error reading request body" 500, logs := [], sent := none }
  | some bodyBytes =>
    let r1 := updatedRequest env.nano r
    let reqID := serveRequestID env.nano r
    let reqLogs := if cfg.LogRequests then
        [LogEvent.request (logRequestID env.nanoLog r1.headers)
          (logRequestData env.nanoLog env.now r1 bodyBytes)]
      else []
    let pr := buildProxyRequest cfg r1 bodyBytes
    match env.upstream pr with
    | Except.error e =>
      { writer := httpError w0 ("Error forwarding request to OpenAI API: " ++ e) 502,
        logs := reqLogs, sent := some pr }
    | Except.ok resp =>
      let w1 := (copyRespHeaders w0 resp.headers).writeHeader resp.statusCode
      if goContains (headerGet resp.headers "Content-Type") "text/event-stream" then
        if cfg.LogResponses then
          if env.flusherOk then
            let out := relayChunks env.now reqID resp w1 resp.chunks
            { writer := out.1, logs := reqLogs ++ out.2, sent := some pr }
          else
            { writer := httpError w1 "Streaming not supported" 500,
              logs := reqLogs, sent := some pr }
        else
          { writer := w1.write (concatChunks resp.chunks), logs := reqLogs, sent := some pr }
      else
        if resp.readErr then
          { writer := httpError w1 "Error reading response from OpenAI API" 500,
            logs := reqLogs, sent := some pr }
        else
          let responseBody := concatChunks resp.chunks
          let respLogs := if cfg.LogResponses then
              [LogEvent.response reqID (logResponseData env.now reqID resp responseBody)]
            else []
          { writer := w1.write responseBody, logs := reqLogs ++ respLogs, sent := some pr }

/-! ### Proof layer: characterizations of the header-map operations -/

/-- All values that the `ServeHTTP` header-copy loop funnels into the outbound
entry at canonical key `ck`, in traversal order (skipping `Host`). -/
def collectValues : Headers → String → List String
  | [], _ => []
  | (k, vs) :: rest, ck =>
    if canonicalKey k = ck ∧ lowerStr k ≠ "host" then vs ++ collectValues rest ck
    else collectValues rest ck

/-- Appending values `l` to an optional map entry. -/
def mergeVals (o : Option (List String)) : List String → Option (List String)
  | [] => o
  | v :: vs => some (o.getD [] ++ v :: vs)

theorem string_eq_empty_iff (s : String) : s = "" ↔ s.data = [] := by
  constructor
  · intro h; rw [h]
  · intro h; exact String.ext h

theorem req_prefix_ne_empty (s : String) : "req-" ++ s ≠ "" := by
  intro h
  rw [string_eq_empty_iff, String.data_append] at h
  simp at h

theorem hLookup_setC_self (hs : Headers) (ck v : String) :
    hLookup (headerSetC hs ck v) ck = some [v] := by
  induction hs with
  | nil => simp [headerSetC, hLookup]
  | cons nv rest ih =>
    obtain ⟨k, vs⟩ := nv
    by_cases h : k = ck
    · simp [headerSetC, h, hLookup]
    · simp [headerSetC, h, hLookup, ih]

theorem hLookup_setC_ne (hs : Headers) (ck v k' : String) (h : k' ≠ ck) :
    hLookup (headerSetC hs ck v) k' = hLookup hs k' := by
  induction hs with
  | nil => simp [headerSetC, hLookup, Ne.symm h]
  | cons nv rest ih =>
    obtain ⟨k, vs⟩ := nv
    by_cases hk : k = ck
    · subst hk; simp [headerSetC, hLookup, Ne.symm h]
    · simp [headerSetC, hk, hLookup, ih]

theorem hLookup_addC_self (hs : Headers) (ck v : String) :
    hLookup (headerAddC hs ck v) ck = some (((hLookup hs ck).getD []) ++ [v]) := by
  induction hs with
  | nil => simp [headerAddC, hLookup]
  | cons nv rest ih =>
    obtain ⟨k, vs⟩ := nv
    by_cases h : k = ck
    · simp [headerAddC, h, hLookup]
    · simp [headerAddC, h, hLookup, ih]

theorem hLookup_addC_ne (hs : Headers) (ck v k' : String) (h : k' ≠ ck) :
    hLookup (headerAddC hs ck v) k' = hLookup hs k' := by
  induction hs with
  | nil => simp [headerAddC, hLookup, Ne.symm h]
  | cons nv rest ih =>
    obtain ⟨k, vs⟩ := nv
    by_cases hk : k = ck
    · subst hk; simp [headerAddC, hLookup, Ne.symm h]
    · simp [headerAddC, hk, hLookup, ih]

theorem headerGet_set_self (hs : Headers) (k v : String) :
    headerGet (headerSet hs k v) k = v := by
  simp [headerGet, headerSet, hLookup_setC_self]

theorem setC_mem (hs : Headers) (ck v : String) : (ck, [v]) ∈ headerSetC hs ck v := by
  induction hs with
  | nil => simp [headerSetC]
  | cons nv rest ih =>
    obtain ⟨k, vs⟩ := nv
    by_cases h : k = ck
    · subst h; simp [headerSetC]
    · simp [headerSetC, h, ih]

theorem setC_entries (hs : Headers) (ck v : String) (nv : String × List String)
    (h : nv ∈ headerSetC hs ck v) : nv.1 = ck ∨ nv ∈ hs := by
  induction hs with
  | nil => simp [headerSetC] at h; simp [h]
  | cons nv0 rest ih =>
    obtain ⟨k, vs⟩ := nv0
    by_cases hk : k = ck
    · subst hk
      simp [headerSetC] at h
      rcases h with h | h
      · left; rw [h]
      · right; simp [h]
    · simp [headerSetC, hk] at h
      rcases h with h | h
      · right; simp [h]
      · rcases ih h with h1 | h1
        · exact Or.inl h1
        · right; simp [h1]

theorem collect_setC_ne (hs : Headers) (ck' v ck : String) (h : canonicalKey ck' ≠ ck) :
    collectValues (headerSetC hs ck' v) ck = collectValues hs ck := by
  induction hs with
  | nil => simp [headerSetC, collectValues, h]
  | cons nv rest ih =>
    obtain ⟨k, vs⟩ := nv
    by_cases hk : k = ck'
    · subst hk; simp [headerSetC, collectValues, h]
    · simp [headerSetC, hk, collectValues, ih]

theorem collect_empty (hs : Headers) (ck : String)
    (h : ∀ nv ∈ hs, canonicalKey nv.1 ≠ ck) : collectValues hs ck = [] := by
  induction hs with
  | nil => rfl
  | cons nv rest ih =>
    obtain ⟨k, vs⟩ := nv
    have hk : canonicalKey k ≠ ck := h (k, vs) (by simp)
    simp only [collectValues]
    rw [if_neg (by simp [hk]), ih]
    intro nv2 h2
    exact h nv2 (by simp [h2])

theorem collect_append (a b : Headers) (ck : String) :
    collectValues (a ++ b) ck = collectValues a ck ++ collectValues b ck := by
  induction a with
  | nil => simp [collectValues]
  | cons nv rest ih =>
    obtain ⟨k, vs⟩ := nv
    by_cases h : canonicalKey k = ck ∧ lowerStr k ≠ "host"
    · simp [collectValues, h, ih]
    · simp [collectValues, h, ih]

theorem collect_mem (hs : Headers) (k : String) (vs : List String) (ck v : String)
    (hmem : (k, vs) ∈ hs) (hck : canonicalKey k = ck) (hh : lowerStr k ≠ "host")
    (hv : v ∈ vs) : v ∈ collectValues hs ck := by
  induction hs with
  | nil => simp at hmem
  | cons nv rest ih =>
    obtain ⟨k0, vs0⟩ := nv
    rcases List.mem_cons.mp hmem with h | h
    · obtain ⟨h1, h2⟩ := Prod.mk.injEq .. ▸ h
      subst h1; subst h2
      simp [collectValues, hck, hh, hv]
    · by_cases hc : canonicalKey k0 = ck ∧ lowerStr k0 ≠ "host"
      · simp [collectValues, hc]; right; exact ih h
      · simp [collectValues, hc]; exact ih h

theorem mergeVals_append (o : Option (List String)) (l1 l2 : List String) :
    mergeVals (mergeVals o l1) l2 = mergeVals o (l1 ++ l2) := by
  cases l1 with
  | nil => simp [mergeVals]
  | cons v vs =>
    cases l2 with
    | nil => simp [mergeVals]
    | cons w ws => simp [mergeVals]

theorem hLookup_addValues_self (vs : List String) (acc : Headers) (k : String) :
    hLookup (addValues acc k vs) (canonicalKey k) =
      mergeVals (hLookup acc (canonicalKey k)) vs := by
  induction vs generalizing acc with
  | nil => simp [addValues, mergeVals]
  | cons v rest ih =>
    simp only [addValues]
    rw [ih, headerAdd, hLookup_addC_self]
    cases hl : hLookup acc (canonicalKey k) <;> cases rest <;> simp [mergeVals]

theorem hLookup_addValues_ne (vs : List String) (acc : Headers) (k ck : String)
    (h : ck ≠ canonicalKey k) :
    hLookup (addValues acc k vs) ck = hLookup acc ck := by
  induction vs generalizing acc with
  | nil => simp [addValues]
  | cons v rest ih =>
    simp only [addValues]
    rw [ih, headerAdd, hLookup_addC_ne _ _ _ _ h]

theorem hLookup_copyInto (hs : Headers) (acc : Headers) (ck : String) :
    hLookup (copyInto acc hs) ck = mergeVals (hLookup acc ck) (collectValues hs ck) := by
  induction hs generalizing acc with
  | nil => simp [copyInto, collectValues, mergeVals]
  | cons nv rest ih =>
    obtain ⟨k, vs⟩ := nv
    by_cases hh : lowerStr k = "host"
    · have hc : ¬(canonicalKey k = ck ∧ lowerStr k ≠ "host") := by simp [hh]
      simp only [copyInto, collectValues]
      rw [if_pos hh, if_neg hc, ih]
    · by_cases hck : canonicalKey k = ck
      · have hc : canonicalKey k = ck ∧ lowerStr k ≠ "host" := ⟨hck, hh⟩
        simp only [copyInto, collectValues]
        rw [if_neg hh, if_pos hc, ih, ← hck, hLookup_addValues_self, hck, mergeVals_append]
      · have hc : ¬(canonicalKey k = ck ∧ lowerStr k ≠ "host") := by simp [hck]
        simp only [copyInto, collectValues]
        rw [if_neg hh, if_neg hc, ih, hLookup_addValues_ne _ _ _ _ (fun  he => hck he.symm)]

theorem hLookup_copyHeaders (hs : Headers) (ck : String) :
    hLookup (copyHeaders hs) ck = mergeVals none (collectValues hs ck) := by
  rw [copyHeaders, hLookup_copyInto]; rfl

/-! ### Writer state lemmas -/

theorem write_body (w : Writer) (s : String) : (w.write s).body = w.body ++ s := by
  cases hc : w.committed with
  | none => simp [Writer.write, Writer.writeHeader, hc]
  | some x => simp [Writer.write, Writer.writeHeader, hc]

theorem write_committed_of_some (w : Writer) (s : String) (h : w.committed.isSome) :
    (w.write s).committed = w.committed := by
  cases hc : w.committed with
  | none => rw [hc] at h; simp at h
  | some x => simp [Writer.write, Writer.writeHeader, hc]

theorem write_pending (w : Writer) (s : String) : (w.write s).pending = w.pending := by
  cases hc : w.committed with
  | none => simp [Writer.write, Writer.writeHeader, hc]
  | some x => simp [Writer.write, Writer.writeHeader, hc]

theorem write_write (w : Writer) (a b : String) :
    (w.write a).write b = w.write (a ++ b) := by
  cases hc : w.committed with
  | none => simp [Writer.write, Writer.writeHeader, hc, String.append_assoc]
  | some x => simp [Writer.write, Writer.writeHeader, hc, String.append_assoc]

theorem write_empty (w : Writer) (h : w.committed.isSome) : w.write "" = w := by
  cases hc : w.committed with
  | none => rw [hc] at h; simp at h
  | some x =>
    have hb : w.body ++ "" = w.body := by
      apply String.ext; rw [String.data_append]; simp
    cases w with
    | mk p c b => simp_all [Writer.write, Writer.writeHeader]

theorem empty_append_str (s : String) : "" ++ s = s := by
  apply String.ext; rw [String.data_append]; simp

theorem writeHeader_body (w : Writer) (c : Nat) : (w.writeHeader c).body = w.body := by
  cases hc : w.committed with
  | none => simp [Writer.writeHeader, hc]
  | some x => simp [Writer.writeHeader, hc]

theorem writeHeader_committed_none (w : Writer) (c : Nat) (h : w.committed = none) :
    (w.writeHeader c).committed = some (c, w.pending) := by
  simp [Writer.writeHeader, h]

theorem writeHeader_isSome (w : Writer) (c : Nat) : (w.writeHeader c).committed.isSome := by
  cases hc : w.committed with
  | none => simp [Writer.writeHeader, hc]
  | some x => simp [Writer.writeHeader, hc]

theorem addRespValues_body (vs : List String) (w : Writer) (k : String) :
    (addRespValues w k vs).body = w.body := by
  induction vs generalizing w with
  | nil => rfl
  | cons v rest ih => simp [addRespValues, ih, Writer.addHeader]

theorem addRespValues_committed (vs : List String) (w : Writer) (k : String) :
    (addRespValues w k vs).committed = w.committed := by
  induction vs generalizing w with
  | nil => rfl
  | cons v rest ih => simp [addRespValues, ih, Writer.addHeader]

theorem copyRespHeaders_body (hs : Headers) (w : Writer) :
    (copyRespHeaders w hs).body = w.body := by
  induction hs generalizing w with
  | nil => rfl
  | cons nv rest ih => simp [copyRespHeaders, ih, addRespValues_body]

theorem copyRespHeaders_committed (hs : Headers) (w : Writer) :
    (copyRespHeaders w hs).committed = w.committed := by
  induction hs generalizing w with
  | nil => rfl
  | cons nv rest ih => simp [copyRespHeaders, ih, addRespValues_committed]

theorem httpError_body (w : Writer) (msg : String) (c : Nat) :
    (httpError w msg c).body = w.body ++ (msg ++ "\n") := by
  simp [httpError, write_body, writeHeader_body, Writer.setHeader, Writer.delHeader]

theorem httpError_committed_none (w : Writer) (msg : String) (c : Nat)
    (h : w.committed = none) :
    ∃ hs, (httpError w msg c).committed = some (c, hs) := by
  refine ⟨headerSet (headerSet (headerDel w.pending "Content-Length") "Content-Type"
      "text/plain; charset=utf-8") "X-Content-Type-Options" "nosniff", ?_⟩
  rw [httpError]
  rw [write_committed_of_some _ _ (writeHeader_isSome _ _)]
  rw [writeHeader_committed_none]
  · rfl
  · simp [Writer.setHeader, Writer.delHeader, h]

theorem httpError_committed_some (w : Writer) (msg : String) (c : Nat)
    (h : w.committed.isSome) : (httpError w msg c).committed = w.committed := by
  rw [httpError, write_committed_of_some _ _ (writeHeader_isSome _ _)]
  cases hc : w.committed with
  | none => rw [hc] at h; simp at h
  | some x => simp [Writer.writeHeader, Writer.setHeader, Writer.delHeader, hc]

/-! ### Relay loop lemmas -/

theorem relayChunks_writer (cs : List String) (now reqID : String)
    (resp : UpstreamResponse) (w : Writer) (h : w.committed.isSome) :
    (relayChunks now reqID resp w cs).1 = w.write (concatChunks cs) := by
  induction cs generalizing w with
  | nil => simp [relayChunks, concatChunks, write_empty _ h]
  | cons c rest ih =>
    by_cases hc : c = ""
    · simp only [relayChunks, concatChunks]
      rw [if_pos hc, ih _ h, hc, empty_append_str]
    · simp only [relayChunks, concatChunks]
      rw [if_neg hc]
      have h2 : (w.write c).committed.isSome := by
        rw [write_committed_of_some _ _ h]; exact h
      simp only [ih _ h2, write_write]

theorem relayChunks_events (cs : List String) (now reqID : String)
    (resp : UpstreamResponse) (w : Writer) (ev : LogEvent)
    (h : ev ∈ (relayChunks now reqID resp w cs).2) :
    ∃ c, ev = LogEvent.response reqID (logResponseData now reqID resp c) := by
  induction cs generalizing w with
  | nil => simp [relayChunks] at h
  | cons c rest ih =>
    by_cases hc : c = ""
    · simp only [relayChunks] at h
      rw [if_pos hc] at h
      exact ih _ h
    · simp only [relayChunks, if_neg hc, List.mem_cons] at h
      rcases h with h | h
      · exact ⟨c, h⟩
      · exact ih _ h

/-! ### `canonicalKey` length facts -/

theorem canonAux_length (b : Bool) (l : List Char) : (canonAux b l).length = l.length := by
  induction l generalizing b with
  | nil => rfl
  | cons c rest ih => simp [canonAux, ih]

theorem canonicalKey_data_length (s : String) :
    (canonicalKey s).data.length = s.data.length := by
  by_cases h : s.data.all isTokenChar
  · simp [canonicalKey, h, canonAux_length]
  · simp [canonicalKey, h]

theorem lowerStr_data_length (s : String) : (lowerStr s).data.length = s.data.length := by
  simp [lowerStr]

theorem canon_auth_ne_host (n : String) (h : canonicalKey n = "Authorization") :
    lowerStr n ≠ "host" := by
  intro h2
  have l1 : n.data.length = 13 := by
    have := canonicalKey_data_length n
    rw [h] at this
    simpa using this.symm
  have l2 : n.data.length = 4 := by
    have := lowerStr_data_length n
    rw [h2] at this
    simpa using this.symm
  omega

/-! ### `serveHTTP` branch structure -/

theorem bodyResult_eq (r : GoRequest) :
    bodyResult r = match r.body with
      | BodyRead.nilBody => some ""
      | BodyRead.bytes s => some s
      | BodyRead.readFail => none := by
  cases r with
  | mk m p q pr hs b => cases b <;> rfl

theorem serveHTTP_sent (cfg : Config) (env : Env) (r : GoRequest) (w : Writer)
    (b : String) (hb : bodyResult r = some b) :
    (serveHTTP cfg env r w).sent =
      some (buildProxyRequest cfg (updatedRequest env.nano r) b) := by
  simp only [serveHTTP, hb]
  cases env.upstream (buildProxyRequest cfg (updatedRequest env.nano r) b) with
  | error e => rfl
  | ok resp =>
    simp only
    split
    · split
      · split <;> rfl
      · rfl
    · split <;> rfl

theorem mergeVals_none_ne_nil (l : List String) (h : l ≠ []) :
    mergeVals none l = some l := by
  cases l with
  | nil => simp at h
  | cons v vs => simp [mergeVals]

theorem buildProxyHeaders_lookup_ne (cfg : Config) (hs : Headers) (k : String)
    (h : k ≠ "Authorization") :
    hLookup (buildProxyHeaders cfg hs) k = hLookup (copyHeaders hs) k := by
  simp only [buildProxyHeaders]
  split
  · rw [headerSet, show canonicalKey "Authorization" = "Authorization" from by decide,
      hLookup_setC_ne _ _ _ _ h]
  · rfl

theorem logRequestID_updated (m n : Nat) (r : GoRequest) :
    logRequestID m (updatedRequest n r).headers = serveRequestID n r := by
  by_cases hid : headerGet r.headers "X-Request-ID" = ""
  · simp only [updatedRequest, serveRequestID, logRequestID, if_pos hid]
    rw [headerGet_set_self]
    rw [if_neg (req_prefix_ne_empty _)]
  · simp only [updatedRequest, serveRequestID, logRequestID, if_neg hid]

/-- C7: a failed inbound body read yields a local 500 response with the error
text as body, no recorder call, and no outbound dispatch. -/
theorem c7_body_read_failure (cfg : Config) (env : Env) (r : GoRequest) (w : Writer)
    (hb : r.body = BodyRead.readFail) (hw : w.committed = none) :
    (serveHTTP cfg env r w).sent = none ∧
    (serveHTTP cfg env r w).logs = [] ∧
    (∃ hs, (serveHTTP cfg env r w).writer.committed = some (500, hs)) ∧
    (serveHTTP cfg env r w).writer.body = w.body ++ "Error reading request body\n" := by
  have hbr : bodyResult r = none := by rw [bodyResult_eq, hb]
  refine ⟨by rw [serveHTTP.eq_def, hbr], by rw [serveHTTP.eq_def, hbr], ?_, ?_⟩
  · rw [serveHTTP.eq_def, hbr]
    exact httpError_committed_none w _ 500 hw
  · rw [serveHTTP.eq_def, hbr]
    rw [httpError_body]
    rw [show ("Error reading request body" ++ "\n" : String)
      = "Error reading request body\n" from rfl]

/-- C10: when the inbound request carries no `X-Request-ID`, `ServeHTTP` sets a
synthesized id on the header map before the copy, so the dispatched outbound
request carries an `X-Request-Id` entry containing the synthesized id. -/
theorem c10_outbound_request_id (cfg : Config) (env : Env) (r : GoRequest) (w : Writer)
    (b : String) (hb : bodyResult r = some b)
    (hnone : headerGet r.headers "X-Request-ID" = "") :
    ∃ pr vs, (serveHTTP cfg env r w).sent = some pr ∧
      hLookup pr.headers "X-Request-Id" = some vs ∧
      ("req-" ++ toString env.nano) ∈ vs := by
  have hupd : (updatedRequest env.nano r).headers
      = headerSetC r.headers "X-Request-Id" ("req-" ++ toString env.nano) := by
    simp only [updatedRequest, if_pos hnone, headerSet,
      show canonicalKey "X-Request-ID" = "X-Request-Id" from by decide]
  have hmem : ("X-Request-Id", ["req-" ++ toString env.nano])
      ∈ (updatedRequest env.nano r).headers := by
    rw [hupd]; exact setC_mem _ _ _
  have hcv : ("req-" ++ toString env.nano)
      ∈ collectValues (updatedRequest env.nano r).headers "X-Request-Id" :=
    collect_mem _ _ _ _ _ hmem (by decide) (by decide) (by simp)
  refine ⟨buildProxyRequest cfg (updatedRequest env.nano r) b,
    collectValues (updatedRequest env.nano r).headers "X-Request-Id",
    serveHTTP_sent cfg env r w b hb, ?_, hcv⟩
  rw [show (buildProxyRequest cfg (updatedRequest env.nano r) b).headers
      = buildProxyHeaders cfg (updatedRequest env.nano r).headers from rfl]
  rw [buildProxyHeaders_lookup_ne _ _ _ (by decide)]
  rw [hLookup_copyHeaders]
  apply mergeVals_none_ne_nil
  intro hnil
  rw [hnil] at hcv
  simp at hcv

/-! ### Concrete test vectors -/

/-- A configuration with a configured credential and all logging enabled. -/
def cfgStd : Config :=
  { Port := "8080"
    OpenAIBaseURL := "https://api.openai.com/v1"
    OpenAIAPIKey := "sk-test"
    LogRequests := true
    LogResponses := true
    LogToStdout := true
    RequestLogFile := "requests.log" }

/-- `cfgStd` with both traffic-logging toggles disabled. -/
def cfgQuiet : Config :=
  { cfgStd with LogRequests := false, LogResponses := false }

/-- A streaming upstream response delivered as a single chunk. -/
def respStream : UpstreamResponse :=
  { proto := "HTTP/1.1"
    status := "200 OK"
    statusCode := 200
    headers := [("Content-Type", ["text/event-stream"])]
    chunks := ["data: hi\n\n"]
    readErr := false }

/-- Environment whose upstream always fails (`client.Do` returns an error). -/
def envErr : Env :=
  { nano := 7
    nanoLog := 9
    now := "2026-01-02T03:04:05Z"
    flusherOk := true
    upstream := fun _ => Except.error "connection refused" }

/-- Environment that always answers with the streaming response, writer
without `http.Flusher` support. -/
def envNoFlush : Env :=
  { nano := 7
    nanoLog := 9
    now := "2026-01-02T03:04:05Z"
    flusherOk := false
    upstream := fun _ => Except.ok respStream }

/-- A plain request with no `Authorization` and no `X-Request-ID`. -/
def rJson : GoRequest :=
  { method := "POST"
    urlPath := "/chat/completions"
    rawQuery := ""
    proto := "HTTP/1.1"
    headers := [("Content-Type", ["application/json"])]
    body := BodyRead.nilBody }

/-- A request that supplies its own (non-empty) `Authorization` value. -/
def rAuth : GoRequest :=
  { rJson with headers := [("Authorization", ["Bearer abc"])] }

/-- A request that supplies an `Authorization` header with an empty value. -/
def rAuthEmpty : GoRequest :=
  { rJson with headers := [("Authorization", [""])] }

/-! ### C1 -/

/-- C1 (amended): when the inbound request has no `Authorization` header and a
credential is configured, the outbound request carries exactly
`Authorization: Bearer <credential>`; when the inbound request supplies an
`Authorization` header whose value (the first one, the one `Header.Get`
observes) is non-empty, the outbound request preserves its values unchanged
and the configured credential is not injected. -/
theorem c1_credential_injection (cfg : Config) (env : Env) (r : GoRequest) (w : Writer)
    (b : String) (hb : bodyResult r = some b) :
    ((∀ nv ∈ r.headers, canonicalKey nv.1 ≠ "Authorization") → cfg.OpenAIAPIKey ≠ "" →
      ∃ pr, (serveHTTP cfg env r w).sent = some pr ∧
        hLookup pr.headers "Authorization" = some ["Bearer " ++ cfg.OpenAIAPIKey]) ∧
    (∀ pre post n v vt, r.headers = pre ++ (n, v :: vt) :: post →
      canonicalKey n = "Authorization" → v ≠ "" →
      (∀ nv ∈ pre ++ post, canonicalKey nv.1 ≠ "Authorization") →
      ∃ pr, (serveHTTP cfg env r w).sent = some pr ∧
        hLookup pr.headers "Authorization" = some (v :: vt)) := by
  constructor
  · intro hA hkey
    have hA1 : ∀ nv ∈ (updatedRequest env.nano r).headers,
        canonicalKey nv.1 ≠ "Authorization" := by
      intro nv hmem
      by_cases hid : headerGet r.headers "X-Request-ID" = ""
      · have hupd : (updatedRequest env.nano r).headers
            = headerSetC r.headers "X-Request-Id" ("req-" ++ toString env.nano) := by
          simp only [updatedRequest, if_pos hid, headerSet,
            show canonicalKey "X-Request-ID" = "X-Request-Id" from by decide]
        rw [hupd] at hmem
        rcases setC_entries _ _ _ _ hmem with h | h
        · rw [h]; decide
        · exact hA nv h
      · simp only [updatedRequest, if_neg hid] at hmem
        exact hA nv hmem
    have h2 : collectValues (updatedRequest env.nano r).headers "Authorization" = [] :=
      collect_empty _ _ hA1
    have h3 : hLookup (copyHeaders (updatedRequest env.nano r).headers) "Authorization"
        = none := by
      rw [hLookup_copyHeaders, h2]; rfl
    have h4 : headerGet (copyHeaders (updatedRequest env.nano r).headers) "Authorization"
        = "" := by
      rw [headerGet, show canonicalKey "Authorization" = "Authorization" from by decide, h3]
    refine ⟨buildProxyRequest cfg (updatedRequest env.nano r) b,
      serveHTTP_sent cfg env r w b hb, ?_⟩
    rw [show (buildProxyRequest cfg (updatedRequest env.nano r) b).headers
        = buildProxyHeaders cfg (updatedRequest env.nano r).headers from rfl]
    simp only [buildProxyHeaders]
    rw [if_pos ⟨h4, hkey⟩, headerSet,
      show canonicalKey "Authorization" = "Authorization" from by decide,
      hLookup_setC_self]
  · intro pre post n v vt hsplit hcanon hv hother
    have hpre : ∀ nv ∈ pre, canonicalKey nv.1 ≠ "Authorization" := by
      intro nv hmem; exact hother nv (by simp [hmem])
    have hpost : ∀ nv ∈ post, canonicalKey nv.1 ≠ "Authorization" := by
      intro nv hmem; exact hother nv (by simp [hmem])
    have h1 : collectValues r.headers "Authorization" = v :: vt := by
      rw [hsplit, collect_append, collect_empty pre _ hpre]
      simp only [collectValues]
      rw [if_pos ⟨hcanon, canon_auth_ne_host n hcanon⟩, collect_empty post _ hpost]
      simp
    have h2 : collectValues (updatedRequest env.nano r).headers "Authorization"
        = v :: vt := by
      by_cases hid : headerGet r.headers "X-Request-ID" = ""
      · have hupd : (updatedRequest env.nano r).headers
            = headerSetC r.headers "X-Request-Id" ("req-" ++ toString env.nano) := by
          simp only [updatedRequest, if_pos hid, headerSet,
            show canonicalKey "X-Request-ID" = "X-Request-Id" from by decide]
        rw [hupd, collect_setC_ne _ _ _ _ (by decide), h1]
      · simp only [updatedRequest, if_neg hid]
        exact h1
    have h3 : hLookup (copyHeaders (updatedRequest env.nano r).headers) "Authorization"
        = some (v :: vt) := by
      rw [hLookup_copyHeaders, h2]; rfl
    have h4 : headerGet (copyHeaders (updatedRequest env.nano r).headers) "Authorization"
        = v := by
      rw [headerGet, show canonicalKey "Authorization" = "Authorization" from by decide, h3]
    refine ⟨buildProxyRequest cfg (updatedRequest env.nano r) b,
      serveHTTP_sent cfg env r w b hb, ?_⟩
    rw [show (buildProxyRequest cfg (updatedRequest env.nano r) b).headers
        = buildProxyHeaders cfg (updatedRequest env.nano r).headers from rfl]
    simp only [buildProxyHeaders]
    rw [if_neg, h3]
    intro hcond
    exact hv (h4 ▸ hcond.1)

/-- C1 witness: concrete runs exercising both halves of the amended claim. -/
theorem c1_witness :
    (bodyResult rJson = some "" ∧ cfgStd.OpenAIAPIKey ≠ "" ∧
      ∃ pr, (serveHTTP cfgStd envErr rJson Writer.init).sent = some pr ∧
        hLookup pr.headers "Authorization" = some ["Bearer " ++ cfgStd.OpenAIAPIKey]) ∧
    (bodyResult rAuth = some "" ∧
      ∃ pr, (serveHTTP cfgStd envErr rAuth Writer.init).sent = some pr ∧
        hLookup pr.headers "Authorization" = some ["Bearer abc"]) := by
  refine ⟨⟨rfl, by decide, ?_⟩, ⟨rfl, ?_⟩⟩
  · exact (c1_credential_injection cfgStd envErr rJson Writer.init "" rfl).1
      (by decide) (by decide)
  · exact (c1_credential_injection cfgStd envErr rAuth Writer.init "" rfl).2
      [] [] "Authorization" "Bearer abc" [] rfl (by decide) (by decide) (by decide)

/-- C1 counterexample: an inbound request that does supply an `Authorization`
header, with empty value, still gets the configured credential injected (its
value is not preserved), refuting the unconditional second half of the claim. -/
theorem c1_counterexample :
    rAuthEmpty.headers = [("Authorization", [""])] ∧
    Option.map (fun pr => hLookup pr.headers "Authorization")
        (serveHTTP cfgStd envErr rAuthEmpty Writer.init).sent
      = some (some ["Bearer sk-test"]) := by decide

/-! ### C2 -/

/-- The delimiter prefix of the record a `LogEvent` carries. -/
def LogEvent.banner : LogEvent → String
  | .request .. => "==== REQUEST ["
  | .response .. => "==== RESPONSE ["

theorem logRequestData_banner (nano : Nat) (now : String) (r : GoRequest) (b : String) :
    ∃ rest, logRequestData nano now r b
      = "==== REQUEST [" ++ (logRequestID nano r.headers ++ ("] " ++ rest)) := by
  refine ⟨now ++ (" ====\n" ++ (r.method ++ (" " ++ (r.urlPath ++ (" " ++ (r.proto ++ ("\n" ++
    ("Headers:\n" ++ (requestHeaderLines r.headers ++
      (if goLen b > 0 then "Body:\n" ++ b ++ "\n" else "")))))))))), ?_⟩
  simp only [logRequestData, String.append_assoc]

theorem logResponseData_banner (now reqID : String) (resp : UpstreamResponse) (c : String) :
    ∃ rest, logResponseData now reqID resp c
      = "==== RESPONSE [" ++ (reqID ++ ("] " ++ rest)) := by
  refine ⟨now ++ (" ====\n" ++ (resp.proto ++ (" " ++ (resp.status ++ ("\n" ++
    ("Headers:\n" ++ (respHeaderLines resp.headers ++
      (if goLen c > 0 then
        (if goLen c > 10000 then
          "Body (truncated to 10000 bytes):\n" ++ takeBytes c 10000 ++ "\n" ++
          "... [" ++ toString (goLen c - 10000) ++ " more bytes]\n"
        else "Body:\n" ++ c ++ "\n")
      else "")))))))), ?_⟩
  simp only [logResponseData, String.append_assoc]

theorem serveHTTP_logs_mem (cfg : Config) (env : Env) (r : GoRequest) (w : Writer)
    (ev : LogEvent) (h : ev ∈ (serveHTTP cfg env r w).logs) :
    (∃ b, bodyResult r = some b ∧
      ev = LogEvent.request (logRequestID env.nanoLog (updatedRequest env.nano r).headers)
        (logRequestData env.nanoLog env.now (updatedRequest env.nano r) b)) ∨
    (∃ resp c, ev = LogEvent.response (serveRequestID env.nano r)
        (logResponseData env.now (serveRequestID env.nano r) resp c)) := by
  cases hbr : bodyResult r with
  | none => rw [serveHTTP.eq_def, hbr] at h; simp at h
  | some b =>
    simp only [serveHTTP, hbr] at h
    have hreq : ∀ hmem : ev ∈ (if cfg.LogRequests then
        [LogEvent.request (logRequestID env.nanoLog (updatedRequest env.nano r).headers)
          (logRequestData env.nanoLog env.now (updatedRequest env.nano r) b)] else []),
        ev = LogEvent.request (logRequestID env.nanoLog (updatedRequest env.nano r).headers)
          (logRequestData env.nanoLog env.now (updatedRequest env.nano r) b) := by
      intro hmem
      by_cases hlr : cfg.LogRequests
      · rw [if_pos hlr] at hmem
        simpa using hmem
      · rw [if_neg hlr] at hmem
        simp at hmem
    cases hup : env.upstream (buildProxyRequest cfg (updatedRequest env.nano r) b) with
    | error e =>
      rw [hup] at h
      simp only at h
      exact Or.inl ⟨b, rfl, hreq h⟩
    | ok resp =>
      rw [hup] at h
      simp only at h
      split at h
      · split at h
        · split at h
          · simp only at h
            rcases List.mem_append.mp h with h1 | h1
            · exact Or.inl ⟨b, rfl, hreq h1⟩
            · rcases relayChunks_events _ _ _ _ _ _ h1 with ⟨c, hc⟩
              exact Or.inr ⟨resp, c, hc⟩
          · simp only at h
            exact Or.inl ⟨b, rfl, hreq h⟩
        · simp only at h
          exact Or.inl ⟨b, rfl, hreq h⟩
      · split at h
        · simp only at h
          exact Or.inl ⟨b, rfl, hreq h⟩
        · simp only at h
          rcases List.mem_append.mp h with h1 | h1
          · exact Or.inl ⟨b, rfl, hreq h1⟩
          · by_cases hlr : cfg.LogResponses
            · rw [if_pos hlr] at h1
              simp only [List.mem_singleton] at h1
              exact Or.inr ⟨resp, concatChunks resp.chunks, h1⟩
            · rw [if_neg hlr] at h1
              simp at h1

/-- C2: every recorder call of one `ServeHTTP` transaction is tagged with the
same correlation id, that id opens each formatted record's delimiter line, and
it equals the inbound `X-Request-ID` when a non-empty one was supplied. -/
theorem c2_correlation (cfg : Config) (env : Env) (r : GoRequest) (w : Writer) :
    (∀ ev ∈ (serveHTTP cfg env r w).logs,
      ev.rid = serveRequestID env.nano r ∧
      ∃ rest, ev.record
        = ev.banner ++ (serveRequestID env.nano r ++ ("] " ++ rest))) ∧
    (headerGet r.headers "X-Request-ID" ≠ "" →
      serveRequestID env.nano r = headerGet r.headers "X-Request-ID") := by
  constructor
  · intro ev hmem
    rcases serveHTTP_logs_mem cfg env r w ev hmem with ⟨b, _, hev⟩ | ⟨resp, c, hev⟩
    · subst hev
      constructor
      · simp only [LogEvent.rid]
        exact logRequestID_updated env.nanoLog env.nano r
      · rcases logRequestData_banner env.nanoLog env.now (updatedRequest env.nano r) b
          with ⟨rest, hr⟩
        refine ⟨rest, ?_⟩
        simp only [LogEvent.record, LogEvent.banner]
        rw [hr, logRequestID_updated env.nanoLog env.nano r]
    · subst hev
      constructor
      · simp only [LogEvent.rid]
      · rcases logResponseData_banner env.now (serveRequestID env.nano r) resp c
          with ⟨rest, hr⟩
        refine ⟨rest, ?_⟩
        simp only [LogEvent.record, LogEvent.banner]
        rw [hr]
  · intro hne
    simp only [serveRequestID, if_neg hne]

/-- The request supplying its own `X-Request-ID: abc`. -/
def rIdReq : GoRequest :=
  { rJson with headers := [("X-Request-Id", ["abc"])] }

/-- The request record `ServeHTTP` produces for `rIdReq` in `envErr`. -/
def dIdReq : String :=
  logRequestData envErr.nanoLog envErr.now (updatedRequest envErr.nano rIdReq) ""

/-- C2 witness: a concrete transaction whose request record is tagged `abc`,
the supplied `X-Request-ID`. -/
theorem c2_witness :
    ((LogEvent.request "abc" dIdReq ∈ (serveHTTP cfgStd envErr rIdReq Writer.init).logs) ∧
      ((LogEvent.request "abc" dIdReq).rid = serveRequestID envErr.nano rIdReq ∧
        ∃ rest, (LogEvent.request "abc" dIdReq).record
          = (LogEvent.request "abc" dIdReq).banner
            ++ (serveRequestID envErr.nano rIdReq ++ ("] " ++ rest)))) ∧
    (headerGet rIdReq.headers "X-Request-ID" ≠ "" ∧
      serveRequestID envErr.nano rIdReq = headerGet rIdReq.headers "X-Request-ID") := by
  have hmem : LogEvent.request "abc" dIdReq
      ∈ (serveHTTP cfgStd envErr rIdReq Writer.init).logs := by decide
  have hne : headerGet rIdReq.headers "X-Request-ID" ≠ "" := by decide
  exact ⟨⟨hmem, (c2_correlation cfgStd envErr rIdReq Writer.init).1 _ hmem⟩,
    ⟨hne, (c2_correlation cfgStd envErr rIdReq Writer.init).2 hne⟩⟩

/-! ### C3 -/

theorem goLen_pos_of_ne_empty (s : String) (h : s ≠ "") : goLen s > 0 := by
  rcases Nat.eq_zero_or_pos (goLen s) with h0 | h0
  · exfalso
    apply h
    rw [string_eq_empty_iff]
    exact List.length_eq_zero.mp h0
  · exact h0

/-- C3: for a non-streaming upstream response the client receives exactly the
upstream body bytes (whatever the logging toggles); when the body exceeds
10000 bytes and response logging is on, the response record truncates it to
exactly the first 10000 bytes between the truncation banner and the
remainder-count trailer; request records always carry the full body. -/
theorem c3_roundtrip_truncation (cfg : Config) (env : Env) (r : GoRequest)
    (b : String) (resp : UpstreamResponse)
    (hb : bodyResult r = some b)
    (hup : env.upstream (buildProxyRequest cfg (updatedRequest env.nano r) b)
      = Except.ok resp)
    (hst : goContains (headerGet resp.headers "Content-Type") "text/event-stream" = false)
    (hre : resp.readErr = false) :
    ((serveHTTP cfg env r Writer.init).writer.body = concatChunks resp.chunks) ∧
    (cfg.LogResponses = true → goLen (concatChunks resp.chunks) > 10000 →
      (∃ pfx, LogEvent.response (serveRequestID env.nano r)
          (pfx ++ ("Body (truncated to 10000 bytes):\n"
            ++ (takeBytes (concatChunks resp.chunks) 10000 ++ ("\n"
            ++ ("... [" ++ (toString (goLen (concatChunks resp.chunks) - 10000)
            ++ " more bytes]\n"))))))
        ∈ (serveHTTP cfg env r Writer.init).logs) ∧
      goLen (takeBytes (concatChunks resp.chunks) 10000) = 10000) ∧
    (∀ nano now req bd, bd ≠ "" →
      ∃ p, logRequestData nano now req bd = p ++ ("Body:\n" ++ (bd ++ "\n"))) := by
  have hrun : serveHTTP cfg env r Writer.init =
      { writer := ((copyRespHeaders Writer.init resp.headers).writeHeader
          resp.statusCode).write (concatChunks resp.chunks)
        logs := (if cfg.LogRequests then
            [LogEvent.request (logRequestID env.nanoLog (updatedRequest env.nano r).headers)
              (logRequestData env.nanoLog env.now (updatedRequest env.nano r) b)] else [])
          ++ (if cfg.LogResponses then
            [LogEvent.response (serveRequestID env.nano r)
              (logResponseData env.now (serveRequestID env.nano r) resp
                (concatChunks resp.chunks))] else [])
        sent := some (buildProxyRequest cfg (updatedRequest env.nano r) b) } := by
    simp only [serveHTTP, hb]
    rw [hup]
    simp only [hst, hre, Bool.false_eq_true, if_false]
  refine ⟨?_, ?_, ?_⟩
  · rw [hrun]
    simp only
    rw [write_body, writeHeader_body, copyRespHeaders_body]
    exact empty_append_str _
  · intro hlr h10
    have h0 : goLen (concatChunks resp.chunks) > 0 := by omega
    constructor
    · refine ⟨"==== RESPONSE [" ++ (serveRequestID env.nano r ++ ("] " ++ (env.now
        ++ (" ====\n" ++ (resp.proto ++ (" " ++ (resp.status ++ ("\n" ++ ("Headers:\n"
        ++ respHeaderLines resp.headers))))))))), ?_⟩
      have hdata : logResponseData env.now (serveRequestID env.nano r) resp
          (concatChunks resp.chunks)
          = "==== RESPONSE [" ++ (serveRequestID env.nano r ++ ("] " ++ (env.now
            ++ (" ====\n" ++ (resp.proto ++ (" " ++ (resp.status ++ ("\n" ++ ("Headers:\n"
            ++ respHeaderLines resp.headers)))))))))
            ++ ("Body (truncated to 10000 bytes):\n"
              ++ (takeBytes (concatChunks resp.chunks) 10000 ++ ("\n"
              ++ ("... [" ++ (toString (goLen (concatChunks resp.chunks) - 10000)
              ++ " more bytes]\n"))))) := by
        simp only [logResponseData, if_pos h0, if_pos h10, String.append_assoc]
      rw [hrun]
      simp only
      rw [← hdata]
      apply List.mem_append_right
      rw [if_pos hlr]
      simp
    · simp only [goLen] at h10
      simp only [goLen, takeBytes, List.length_take]
      omega
  · intro nano now req bd hbd
    have hpos : goLen bd > 0 := goLen_pos_of_ne_empty bd hbd
    refine ⟨"==== REQUEST [" ++ (logRequestID nano req.headers ++ ("] " ++ (now
      ++ (" ====\n" ++ (req.method ++ (" " ++ (req.urlPath ++ (" " ++ (req.proto
      ++ ("\n" ++ ("Headers:\n" ++ requestHeaderLines req.headers))))))))))), ?_⟩
    simp only [logRequestData, if_pos hpos, String.append_assoc]

/-- An upstream body of 10001 bytes. -/
def bigBody : String := String.mk (List.replicate 10001 'a')

/-- A buffered (non-streaming) upstream response carrying `bigBody`. -/
def respBig : UpstreamResponse :=
  { proto := "HTTP/1.1"
    status := "200 OK"
    statusCode := 200
    headers := [("Content-Type", ["application/json"])]
    chunks := [bigBody]
    readErr := false }

/-- Environment that always answers with `respBig`. -/
def envBig : Env :=
  { nano := 7
    nanoLog := 9
    now := "2026-01-02T03:04:05Z"
    flusherOk := true
    upstream := fun _ => Except.ok respBig }

/-- C3 witness: the 10001-byte buffered response is relayed whole to the
client while its log record is truncated to exactly 10000 bytes. -/
theorem c3_witness :
    (bodyResult rJson = some "" ∧
      envBig.upstream (buildProxyRequest cfgStd (updatedRequest envBig.nano rJson) "")
        = Except.ok respBig ∧
      goContains (headerGet respBig.headers "Content-Type") "text/event-stream" = false ∧
      respBig.readErr = false ∧ cfgStd.LogResponses = true ∧
      goLen (concatChunks respBig.chunks) > 10000) ∧
    ((serveHTTP cfgStd envBig rJson Writer.init).writer.body = concatChunks respBig.chunks ∧
      goLen (takeBytes (concatChunks respBig.chunks) 10000) = 10000) := by
  have hbig : goLen (concatChunks respBig.chunks) > 10000 := by
    show (bigBody ++ "").data.length > 10000
    rw [String.data_append]
    rw [show bigBody.data = List.replicate 10001 'a' from rfl]
    rw [show ("".data : List Char) = [] from rfl, List.append_nil, List.length_replicate]
    omega
  have hst : goContains (headerGet respBig.headers "Content-Type")
      "text/event-stream" = false := by decide
  refine ⟨⟨rfl, rfl, hst, rfl, rfl, hbig⟩, ?_, ?_⟩
  · exact (c3_roundtrip_truncation cfgStd envBig rJson "" respBig rfl rfl hst rfl).1
  · exact ((c3_roundtrip_truncation cfgStd envBig rJson "" respBig rfl rfl
      hst rfl).2.1 rfl hbig).2

/-! ### C4 -/

theorem reqLines_append (a b : Headers) :
    requestHeaderLines (a ++ b) = requestHeaderLines a ++ requestHeaderLines b := by
  induction a with
  | nil => simp [requestHeaderLines, empty_append_str]
  | cons nv rest ih => simp [requestHeaderLines, ih, String.append_assoc]

theorem hLookup_mid_ne (pre post : Headers) (n k : String) (vs vs2 : List String)
    (h : n ≠ k) :
    hLookup (pre ++ (n, vs) :: post) k = hLookup (pre ++ (n, vs2) :: post) k := by
  induction pre with
  | nil => simp [hLookup, h]
  | cons nv rest ih =>
    obtain ⟨k0, vs0⟩ := nv
    by_cases hk : k0 = k
    · simp [hLookup, hk]
    · simp [hLookup, hk, ih]

/-- C4: a request header whose name lower-cases to `authorization` contributes
exactly the single line `  <Name>: Bearer [REDACTED]` to the request record;
the whole record is independent of that header's actual values (so the value
is never emitted); response header values are printed verbatim, never
redacted. -/
theorem c4_authorization_redaction (nano : Nat) (now : String) (r : GoRequest) (b : String)
    (pre post : Headers) (n : String) (vs vs2 : List String)
    (hsplit : r.headers = pre ++ (n, vs) :: post)
    (hlow : lowerStr n = "authorization") :
    (requestHeaderLines r.headers
      = requestHeaderLines pre ++ (("  " ++ n ++ ": Bearer [REDACTED]\n")
        ++ requestHeaderLines post)) ∧
    (logRequestData nano now r b
      = logRequestData nano now { r with headers := pre ++ (n, vs2) :: post } b) ∧
    (∀ m v mvs, respEntryLines m (v :: mvs)
      = "  " ++ m ++ ": " ++ v ++ "\n" ++ respEntryLines m mvs) := by
  have hne : n ≠ "X-Request-Id" := by
    intro he
    rw [he] at hlow
    exact absurd hlow (by decide)
  have hlines : requestHeaderLines (pre ++ (n, vs) :: post)
      = requestHeaderLines (pre ++ (n, vs2) :: post) := by
    rw [reqLines_append, reqLines_append]
    simp [requestHeaderLines, requestEntryLines, hlow]
  refine ⟨?_, ?_, fun m v mvs => rfl⟩
  · rw [hsplit, reqLines_append]
    simp [requestHeaderLines, requestEntryLines, hlow, String.append_assoc]
  · simp only [logRequestData, logRequestID, headerGet, hsplit]
    rw [show canonicalKey "X-Request-ID" = "X-Request-Id" from by decide]
    rw [hLookup_mid_ne pre post n "X-Request-Id" vs vs2 hne]
    rw [hlines]

/-- The inbound request of the spec example (`Authorization: Bearer secret123`). -/
def rSecret : GoRequest :=
  { rJson with headers := [("Authorization", ["Bearer secret123"])] }

/-- C4 witness: the spec scenario, with the redacted line produced. -/
theorem c4_witness :
    (rSecret.headers = [] ++ ("Authorization", ["Bearer secret123"]) :: []
      ∧ lowerStr "Authorization" = "authorization") ∧
    requestHeaderLines rSecret.headers
      = requestHeaderLines [] ++ (("  " ++ "Authorization" ++ ": Bearer [REDACTED]\n")
        ++ requestHeaderLines []) := by
  refine ⟨⟨rfl, by decide⟩, ?_⟩
  exact (c4_authorization_redaction 9 "T" rSecret "" [] [] "Authorization"
    ["Bearer secret123"] ["x"] rfl (by decide)).1

/-! ### C5 -/

/-- C5 (amended): for a streaming response with response logging enabled and a
writer without flush support, the handler aborts before relaying any upstream
body byte and writes the `Streaming not supported` error text as the response
body; but the upstream status and headers were already committed, so the
attempted 500 status has no client-visible effect, and no response record is
logged. -/
theorem c5_streaming_unsupported (cfg : Config) (env : Env) (r : GoRequest) (w : Writer)
    (b : String) (resp : UpstreamResponse)
    (hb : bodyResult r = some b)
    (hup : env.upstream (buildProxyRequest cfg (updatedRequest env.nano r) b)
      = Except.ok resp)
    (hst : goContains (headerGet resp.headers "Content-Type") "text/event-stream" = true)
    (hlog : cfg.LogResponses = true)
    (hfl : env.flusherOk = false)
    (hw : w.committed = none) :
    ((serveHTTP cfg env r w).writer.body = w.body ++ "Streaming not supported\n") ∧
    ((serveHTTP cfg env r w).writer.committed
      = some (resp.statusCode, (copyRespHeaders w resp.headers).pending)) ∧
    (∀ i d, LogEvent.response i d ∉ (serveHTTP cfg env r w).logs) := by
  have hrun : serveHTTP cfg env r w =
      { writer := httpError ((copyRespHeaders w resp.headers).writeHeader resp.statusCode)
          "Streaming not supported" 500
        logs := (if cfg.LogRequests then
            [LogEvent.request (logRequestID env.nanoLog (updatedRequest env.nano r).headers)
              (logRequestData env.nanoLog env.now (updatedRequest env.nano r) b)] else [])
        sent := some (buildProxyRequest cfg (updatedRequest env.nano r) b) } := by
    simp only [serveHTTP, hb]
    rw [hup]
    simp only [hst, hlog, hfl, Bool.false_eq_true, if_false, if_true]
  have hcom : ((copyRespHeaders w resp.headers).writeHeader resp.statusCode).committed
      = some (resp.statusCode, (copyRespHeaders w resp.headers).pending) := by
    apply writeHeader_committed_none
    rw [copyRespHeaders_committed, hw]
  refine ⟨?_, ?_, ?_⟩
  · rw [hrun]
    simp only
    rw [httpError_body, writeHeader_body, copyRespHeaders_body]
    rw [show ("Streaming not supported" ++ "\n" : String)
      = "Streaming not supported\n" from rfl]
  · rw [hrun]
    simp only
    rw [httpError_committed_some, hcom]
    rw [hcom]
    rfl
  · intro i d hmem
    rw [hrun] at hmem
    simp only at hmem
    by_cases hlr : cfg.LogRequests
    · rw [if_pos hlr] at hmem
      simp at hmem
    · rw [if_neg hlr] at hmem
      simp at hmem

/-- C5 counterexample: with the upstream answering 200 and a flush-incapable
writer, the client-visible status is the already-committed 200, not a 500
server error, and the error text is itself written as body bytes. -/
theorem c5_counterexample :
    (serveHTTP cfgStd envNoFlush rJson Writer.init).writer.body
      = "Streaming not supported\n" ∧
    (serveHTTP cfgStd envNoFlush rJson Writer.init).writer.committed
      = some (200, [("Content-Type", ["text/event-stream"])]) ∧
    Option.map Prod.fst (serveHTTP cfgStd envNoFlush rJson Writer.init).writer.committed
      ≠ some 500 := by decide

/-- C5 witness: concrete run of the amended claim's error path. -/
theorem c5_witness :
    (bodyResult rJson = some "" ∧
      envNoFlush.upstream (buildProxyRequest cfgStd (updatedRequest envNoFlush.nano rJson) "")
        = Except.ok respStream ∧
      goContains (headerGet respStream.headers "Content-Type") "text/event-stream" = true ∧
      cfgStd.LogResponses = true ∧ envNoFlush.flusherOk = false ∧
      Writer.init.committed = none) ∧
    ((serveHTTP cfgStd envNoFlush rJson Writer.init).writer.body
      = Writer.init.body ++ "Streaming not supported\n") := by
  refine ⟨⟨rfl, rfl, by decide, rfl, rfl, rfl⟩, ?_⟩
  exact (c5_streaming_unsupported cfgStd envNoFlush rJson Writer.init "" respStream
    rfl rfl (by decide) rfl rfl rfl).1

/-! ### C6 -/

/-- C6 (amended): whenever the response writer supports flushing, the
client-visible writer state after `ServeHTTP` is identical with both logging
toggles enabled and both disabled — the logging side-channel never mutates the
relayed status, headers or body.  (The flusher proviso is forced: without
flush support a streaming response makes the logging toggle observable.) -/
theorem c6_logging_transparent (cfg : Config) (env : Env) (r : GoRequest) (w : Writer)
    (hfl : env.flusherOk = true) :
    (serveHTTP { cfg with LogRequests := true, LogResponses := true } env r w).writer
      = (serveHTTP { cfg with LogRequests := false, LogResponses := false } env r w).writer := by
  have hpr : ∀ (rr : GoRequest) (bb : String),
      buildProxyRequest { cfg with LogRequests := true, LogResponses := true } rr bb
        = buildProxyRequest { cfg with LogRequests := false, LogResponses := false } rr bb :=
    fun rr bb => rfl
  cases hbr : bodyResult r with
  | none =>
    rw [serveHTTP.eq_def, serveHTTP.eq_def, hbr]
  | some b =>
    simp only [serveHTTP, hbr]
    rw [hpr]
    cases hup : env.upstream (buildProxyRequest
        { cfg with LogRequests := false, LogResponses := false }
        (updatedRequest env.nano r) b) with
    | error e => rfl
    | ok resp =>
      simp only [hfl]
      by_cases hstr : goContains (headerGet resp.headers "Content-Type")
          "text/event-stream" = true
      · simp only [hstr, if_true, Bool.false_eq_true, if_false]
        exact relayChunks_writer _ _ _ _ _ (writeHeader_isSome _ _)
      · simp only [Bool.not_eq_true] at hstr
        simp only [hstr, Bool.false_eq_true, if_false]
        by_cases hre : resp.readErr = true
        · simp only [hre, if_true]
        · simp only [Bool.not_eq_true] at hre
          simp only [hre, Bool.false_eq_true, if_false]

/-- C6 counterexample: with a flush-incapable writer and a streaming upstream
response, enabling the logging toggles changes the client-visible body (the
`Streaming not supported` error text instead of the relayed stream). -/
theorem c6_counterexample :
    (serveHTTP cfgStd envNoFlush rJson Writer.init).writer.body
      = "Streaming not supported\n" ∧
    (serveHTTP cfgQuiet envNoFlush rJson Writer.init).writer.body = "data: hi\n\n" ∧
    (serveHTTP cfgStd envNoFlush rJson Writer.init).writer.body
      ≠ (serveHTTP cfgQuiet envNoFlush rJson Writer.init).writer.body := by decide

/-- Environment that always answers with the streaming response and whose
writer supports flushing. -/
def envFlush : Env :=
  { envNoFlush with flusherOk := true }

/-- C6 witness: identical writers on a concrete streaming roundtrip with
flush support. -/
theorem c6_witness :
    envFlush.flusherOk = true ∧
    (serveHTTP { cfgStd with LogRequests := true, LogResponses := true }
        envFlush rJson Writer.init).writer
      = (serveHTTP { cfgStd with LogRequests := false, LogResponses := false }
        envFlush rJson Writer.init).writer :=
  ⟨rfl, c6_logging_transparent cfgStd envFlush rJson Writer.init rfl⟩

/-! ### C8 -/

/-- Does the text end in a blank line (two final newline bytes)? -/
def endsBlank (s : String) : Bool :=
  match s.data.reverse with
  | '\n' :: '\n' :: _ => true
  | _ => false

/-- `s` ends with a newline byte. -/
def endsNL (s : String) : Prop := ∃ t, s = t ++ "\n"

theorem str_append_empty (s : String) : s ++ "" = s := by
  apply String.ext; rw [String.data_append]; simp

theorem endsNL_append (a b : String) (h : endsNL b) : endsNL (a ++ b) := by
  rcases h with ⟨t, ht⟩
  exact ⟨a ++ t, by rw [ht, String.append_assoc]⟩

theorem endsNL_append_choice (a b : String) (ha : a = "" ∨ endsNL a)
    (hb : b = "" ∨ endsNL b) : a ++ b = "" ∨ endsNL (a ++ b) := by
  rcases hb with hb | hb
  · subst hb
    rw [str_append_empty]
    exact ha
  · exact Or.inr (endsNL_append a b hb)

theorem valueLines_ends (n : String) (vs : List String) :
    valueLines n vs = "" ∨ endsNL (valueLines n vs) := by
  induction vs with
  | nil => exact Or.inl rfl
  | cons v rest ih =>
    right
    rcases ih with h0 | ⟨t, ht⟩
    · refine ⟨"  " ++ n ++ ": " ++ v, ?_⟩
      rw [valueLines, h0, str_append_empty]
    · refine ⟨"  " ++ n ++ ": " ++ v ++ "\n" ++ t, ?_⟩
      rw [valueLines, ht]
      simp only [String.append_assoc]

theorem requestEntryLines_ends (nv : String × List String) :
    requestEntryLines nv = "" ∨ endsNL (requestEntryLines nv) := by
  rw [requestEntryLines]
  split
  · right
    refine ⟨"  " ++ nv.1 ++ ": Bearer [REDACTED]", ?_⟩
    rw [show (": Bearer [REDACTED]\n" : String) = ": Bearer [REDACTED]" ++ "\n" from rfl]
    simp only [String.append_assoc]
  · exact valueLines_ends nv.1 nv.2

theorem requestHeaderLines_ends (hs : Headers) :
    requestHeaderLines hs = "" ∨ endsNL (requestHeaderLines hs) := by
  induction hs with
  | nil => exact Or.inl rfl
  | cons nv rest ih =>
    rw [requestHeaderLines]
    exact endsNL_append_choice _ _ (requestEntryLines_ends nv) ih

theorem respEntryLines_ends (n : String) (vs : List String) :
    respEntryLines n vs = "" ∨ endsNL (respEntryLines n vs) := by
  induction vs with
  | nil => exact Or.inl rfl
  | cons v rest ih =>
    right
    rcases ih with h0 | ⟨t, ht⟩
    · refine ⟨"  " ++ n ++ ": " ++ v, ?_⟩
      rw [respEntryLines, h0, str_append_empty]
    · refine ⟨"  " ++ n ++ ": " ++ v ++ "\n" ++ t, ?_⟩
      rw [respEntryLines, ht]
      simp only [String.append_assoc]

theorem respHeaderLines_ends (hs : Headers) :
    respHeaderLines hs = "" ∨ endsNL (respHeaderLines hs) := by
  induction hs with
  | nil => exact Or.inl rfl
  | cons nv rest ih =>
    rw [respHeaderLines]
    exact endsNL_append_choice _ _ (respEntryLines_ends nv.1 nv.2) ih

theorem endsNL_of_header_section (p : String) (q : String)
    (hq : q = "" ∨ endsNL q) (hp : endsNL p) : endsNL (p ++ q) := by
  rcases hq with hq | hq
  · rw [hq, str_append_empty]; exact hp
  · exact endsNL_append p q hq

theorem logRequestData_endsNL (nano : Nat) (now : String) (r : GoRequest) (b : String) :
    endsNL (logRequestData nano now r b) := by
  rw [logRequestData]
  by_cases hb : goLen b > 0
  · rw [if_pos hb]
    apply endsNL_append
    exact ⟨"Body:\n" ++ b, rfl⟩
  · rw [if_neg hb]
    rw [str_append_empty]
    apply endsNL_of_header_section _ _ (requestHeaderLines_ends r.headers)
    refine ⟨"==== REQUEST [" ++ logRequestID nano r.headers ++ "] " ++ now ++ " ====\n" ++
      r.method ++ " " ++ r.urlPath ++ " " ++ r.proto ++ "\n" ++ "Headers:", ?_⟩
    rw [show ("Headers:\n" : String) = "Headers:" ++ "\n" from rfl]
    simp only [String.append_assoc]

theorem logResponseData_endsNL (now reqID : String) (resp : UpstreamResponse)
    (c : String) : endsNL (logResponseData now reqID resp c) := by
  rw [logResponseData]
  by_cases hc : goLen c > 0
  · rw [if_pos hc]
    by_cases h10 : goLen c > 10000
    · rw [if_pos h10]
      apply endsNL_append
      refine ⟨"Body (truncated to 10000 bytes):\n" ++ takeBytes c 10000 ++ "\n" ++
        "... [" ++ toString (goLen c - 10000) ++ " more bytes]", ?_⟩
      rw [show (" more bytes]\n" : String) = " more bytes]" ++ "\n" from rfl]
      simp only [String.append_assoc]
    · rw [if_neg h10]
      apply endsNL_append
      exact ⟨"Body:\n" ++ c, rfl⟩
  · rw [if_neg hc]
    rw [str_append_empty]
    apply endsNL_of_header_section _ _ (respHeaderLines_ends resp.headers)
    refine ⟨"==== RESPONSE [" ++ reqID ++ "] " ++ now ++ " ====\n" ++
      resp.proto ++ " " ++ resp.status ++ "\n" ++ "Headers:", ?_⟩
    rw [show ("Headers:\n" : String) = "Headers:" ++ "\n" from rfl]
    simp only [String.append_assoc]

theorem endsBlank_of_endsNL (d : String) (h : endsNL d) :
    endsBlank (d ++ "\n") = true := by
  rcases h with ⟨t, ht⟩
  subst ht
  simp only [endsBlank, String.data_append]
  have hrev : (t.data ++ ['\n'] ++ ['\n']).reverse = '\n' :: '\n' :: t.data.reverse := by
    simp
  rw [hrev]
  rfl

/-- C8 (amended): every record appended to the file sink ends with a trailing
blank line after the body section (the `Fprintln` adds one extra newline past
the record's own final newline); the console sink gets the record verbatim via
`fmt.Print`, with no extra newline appended. -/
theorem c8_trailing_blank_line (l : RequestLogger) (nano : Nat) (now : String)
    (r : GoRequest) (b : String) (reqID : String) (resp : UpstreamResponse) (c : String)
    (hf : l.LogToFile = true) :
    ((emitLog l (logRequestData nano now r b)).fileOut
      = some (logRequestData nano now r b ++ "\n") ∧
      endsBlank (logRequestData nano now r b ++ "\n") = true) ∧
    ((emitLog l (logResponseData now reqID resp c)).fileOut
      = some (logResponseData now reqID resp c ++ "\n") ∧
      endsBlank (logResponseData now reqID resp c ++ "\n") = true) ∧
    ((emitLog l (logRequestData nano now r b)).stdoutOut
      = if l.LogToStdout then some (logRequestData nano now r b) else none) := by
  refine ⟨⟨?_, ?_⟩, ⟨?_, ?_⟩, rfl⟩
  · simp [emitLog, hf]
  · exact endsBlank_of_endsNL _ (logRequestData_endsNL nano now r b)
  · simp [emitLog, hf]
  · exact endsBlank_of_endsNL _ (logResponseData_endsNL now reqID resp c)

/-- A concrete request record whose body does not end in a newline. -/
def dPlainRec : String := logRequestData 9 "2026-01-02T03:04:05Z" rSecret "hi"

/-- C8 counterexample: the console sink's copy of a record does not end with a
blank line, while the file sink's copy of the same record does. -/
theorem c8_counterexample :
    (emitLog { LogToFile := true, LogToStdout := true } dPlainRec).stdoutOut
      = some dPlainRec ∧
    endsBlank dPlainRec = false ∧
    (emitLog { LogToFile := true, LogToStdout := true } dPlainRec).fileOut
      = some (dPlainRec ++ "\n") ∧
    endsBlank (dPlainRec ++ "\n") = true := by decide

/-- C8 witness: the amended claim at a concrete logger and records. -/
theorem c8_witness :
    ({ LogToFile := true, LogToStdout := true : RequestLogger }.LogToFile = true) ∧
    ((emitLog { LogToFile := true, LogToStdout := true } dPlainRec).fileOut
      = some (dPlainRec ++ "\n") ∧
      endsBlank (dPlainRec ++ "\n") = true) := by
  refine ⟨rfl, ?_, ?_⟩
  · exact ((c8_trailing_blank_line { LogToFile := true, LogToStdout := true }
      9 "2026-01-02T03:04:05Z" rSecret "hi" "abc" respStream "x" rfl).1).1
  · exact ((c8_trailing_blank_line { LogToFile := true, LogToStdout := true }
      9 "2026-01-02T03:04:05Z" rSecret "hi" "abc" respStream "x" rfl).1).2

/-! ### Witnesses for C7 and C10 -/

/-- A request whose body read fails. -/
def rFail : GoRequest :=
  { rJson with body := BodyRead.readFail }

/-- C7 witness: the error path at a concrete request. -/
theorem c7_witness :
    (rFail.body = BodyRead.readFail ∧ Writer.init.committed = none) ∧
    ((serveHTTP cfgStd envErr rFail Writer.init).sent = none ∧
      (serveHTTP cfgStd envErr rFail Writer.init).logs = [] ∧
      (∃ hs, (serveHTTP cfgStd envErr rFail Writer.init).writer.committed = some (500, hs)) ∧
      (serveHTTP cfgStd envErr rFail Writer.init).writer.body
        = Writer.init.body ++ "Error reading request body\n") :=
  ⟨⟨rfl, rfl⟩, c7_body_read_failure cfgStd envErr rFail Writer.init rfl rfl⟩

/-- C10 witness: a concrete request without `X-Request-ID` whose outbound
request carries the synthesized id. -/
theorem c10_witness :
    (bodyResult rJson = some "" ∧ headerGet rJson.headers "X-Request-ID" = "") ∧
    (∃ pr vs, (serveHTTP cfgStd envErr rJson Writer.init).sent = some pr ∧
      hLookup pr.headers "X-Request-Id" = some vs ∧
      ("req-" ++ toString envErr.nano) ∈ vs) :=
  ⟨⟨rfl, by decide⟩,
    c10_outbound_request_id cfgStd envErr rJson Writer.init "" rfl (by decide)⟩

end OaiProxy
